import Mathlib

/-!
# Tribute page interactivity layer (`script.js`)

A shallow embedding of the event handlers of `script.js`.  Every handler is a
pure function on the part of the DOM it reads and writes; the platform
(event loop, timers, session history, observers) is modelled by small explicit
state records.  Scroll offsets and viewport coordinates are integers.
-/

namespace Tribute

/-! ## DOM basics -/

/-- Errors a handler can raise. -/
inductive JsError where
  | typeError
  | syntaxError
  | referenceError
  deriving DecidableEq, Repr

/-- Platform model of `classList.add`: the token is appended unless present. -/
def classAdd (c : String) (cl : List String) : List String :=
  if c ∈ cl then cl else cl ++ [c]

/-- Platform model of `classList.remove`: every occurrence of the token goes. -/
def classRemove (c : String) (cl : List String) : List String :=
  cl.filter (fun x => x ≠ c)

/-- The part of an element the script touches: class list and inline style. -/
structure Element where
  classList : List String
  opacity : String
  visibility : String
  deriving DecidableEq, Repr

/-! ## Back-to-top control (lines 15-42) -/

/-- Embedding of `toggleBackToTop` (lines 18-27).  `backToTopButton` is the result
of `document.getElementById`, `none` standing for `null`; both branches
dereference it, which raises a `TypeError` on `null`. -/
def toggleBackToTop (pageYOffset : Int) (backToTopButton : Option Element) :
    Except JsError Element :=
  match backToTopButton with
  | none => .error .typeError
  | some b =>
    if pageYOffset > 300 then
      .ok { b with classList := classAdd "visible" b.classList
                   opacity := "1"
                   visibility := "visible" }
    else
      .ok { b with opacity := "0", visibility := "hidden" }

/-- The scroll listener of line 33 on a page that has the control: one call of
`toggleBackToTop` per scroll event, the element carried along. -/
def onScroll (b : Element) (pageYOffset : Int) : Element :=
  match toggleBackToTop pageYOffset (some b) with
  | .ok b' => b'
  | .error _ => b

/-- The control after a sequence of scroll events, given by their offsets. -/
def scrollRun (b : Element) (offsets : List Int) : Element :=
  offsets.foldl onScroll b

/-! ## Anchor smooth-scroll (lines 45-75) -/

/-- Outcome of `document.querySelector(targetId)`: a `SyntaxError` for a string
that is no selector, `null`, or an element, given by the `top` of its
bounding client rectangle. -/
inductive Query where
  | invalid
  | missing
  | found (top : Int)
  deriving DecidableEq, Repr

/-- Requests a click handler makes to the platform, in program order. -/
inductive Effect where
  | preventDefault
  | scrollTo (top : Int) (behavior : String)
  | pushState (url : String)
  | setHash (hash : String)
  deriving DecidableEq, Repr

/-- What the anchor click handler reads from the platform. -/
structure ClickEnv where
  querySelector : String → Query
  pageYOffset : Int
  hasPushState : Bool

/-- Embedding of the anchor click handler (lines 46-74); `href` is
`this.getAttribute('href')`. -/
def anchorClick (env : ClickEnv) (href : String) : List Effect × Option JsError :=
  if href = "#" then ([], none)
  else
    match env.querySelector href with
    | .invalid => ([], some .syntaxError)
    | .missing => ([], none)
    | .found elementPosition =>
      let headerOffset : Int := 100
      let offsetPosition := elementPosition + env.pageYOffset - headerOffset
      ([.preventDefault, .scrollTo offsetPosition "smooth",
        if env.hasPushState then .pushState href else .setHash href], none)

/-- The scroll requests among a handler's effects. -/
def scrollRequests (es : List Effect) : List Effect :=
  es.filter (fun e => match e with
    | .scrollTo _ _ => true
    | _ => false)

/-- Platform model of the joint session history: its entries (URLs) and the
position of the current one. -/
structure History where
  entries : List String
  index : Nat
  deriving DecidableEq, Repr

/-- Platform model of `history.pushState(null, null, url)`: the entries after the
current one are dropped, a new entry is appended and becomes current. -/
def History.pushState (h : History) (url : String) : History :=
  { entries := h.entries.take (h.index + 1) ++ [url], index := h.index + 1 }

/-- Platform model of `history.replaceState(null, null, url)`: the current entry
is overwritten in place. -/
def History.replaceState (h : History) (url : String) : History :=
  { h with entries := h.entries.set h.index url }

/-- The platform state the click handler's effects act on: session history,
`location.hash`, whether the click's default action was prevented, and the
targets of the `window.scrollTo` requests made so far. -/
structure Browser where
  history : History
  locationHash : String
  defaultPrevented : Bool
  scrolls : List Int
  deriving DecidableEq, Repr

/-- Platform model of assigning `window.location.hash`: nothing happens when the
fragment is the current one; otherwise the page navigates to the fragment, which
appends a session-history entry after the current one. -/
def assignHash (b : Browser) (hash : String) : Browser :=
  if b.locationHash = hash then b
  else { b with history := b.history.pushState hash, locationHash := hash }

/-- One effect applied to the platform state. -/
def applyEffect (b : Browser) : Effect → Browser
  | .preventDefault => { b with defaultPrevented := true }
  | .scrollTo top _ => { b with scrolls := b.scrolls ++ [top] }
  | .pushState url => { b with history := b.history.pushState url, locationHash := url }
  | .setHash hash => assignHash b hash

/-- A click on an anchor with the given `href`, run against the platform state. -/
def clickOn (env : ClickEnv) (href : String) (b : Browser) : Browser :=
  (anchorClick env href).1.foldl applyEffect b

/-! ## Lazy image loader (lines 146-176) -/

/-- What a registered `load` listener does. -/
inductive LoadListener where
  | addLoadedClass
  deriving DecidableEq, Repr

/-- The part of an `img[loading="lazy"]` element the loader touches. -/
structure Image where
  complete : Bool
  classList : List String
  loading : String
  src : String
  dataSrc : Option String
  loadListeners : List LoadListener
  observed : Bool
  deriving DecidableEq, Repr

/-- Body of the first `forEach` (lines 150-152), native lazy loading present. -/
def nativeImage (img : Image) : Image :=
  { img with loading := "lazy" }

/-- Body of the second `forEach` (lines 166-175), native lazy loading absent. -/
def fallbackImage (img : Image) : Image :=
  let img1 :=
    if img.complete then { img with classList := classAdd "loaded" img.classList }
    else { img with loadListeners := img.loadListeners ++ [.addLoadedClass] }
  { img1 with observed := true }

/-- Result of the loader: the images, and whether `imageObserver` was created. -/
structure LazyResult where
  images : List Image
  observerCreated : Bool
  deriving DecidableEq, Repr

/-- Embedding of lines 146-176; `nativeLazy` is
`'loading' in HTMLImageElement.prototype`, `hasIntersectionObserver` says whether
the global `IntersectionObserver` exists.  Without native lazy loading the
observer is constructed (line 155) before any image is visited, which raises a
`ReferenceError` where the constructor is missing. -/
def lazyLoad (nativeLazy hasIntersectionObserver : Bool) (images : List Image) :
    Except JsError LazyResult :=
  if nativeLazy then
    .ok { images := images.map nativeImage, observerCreated := false }
  else if hasIntersectionObserver then
    .ok { images := images.map fallbackImage, observerCreated := true }
  else
    .error .referenceError

/-- Platform model of the image's `load` event: the image is complete and its
listeners run in registration order. -/
def dispatchLoad (img : Image) : Image :=
  img.loadListeners.foldl
    (fun i l => match l with
      | .addLoadedClass => { i with classList := classAdd "loaded" i.classList })
    { img with complete := true }

/-- Embedding of the `imageObserver` callback for one entry (lines 156-163). -/
def imageObserverEntry (isIntersecting : Bool) (img : Image) : Image :=
  if img.observed && isIntersecting then
    { img with src := (match img.dataSrc with
                        | some d => if d = "" then img.src else d
                        | none => img.src)
               classList := classAdd "loaded" img.classList
               observed := false }
  else img

/-! ## Lifecycle bootstrap (lines 10-309) -/

/-- The statements of the `DOMContentLoaded` handler, in source order. -/
inductive BootStep where
  | bodyLoaded
  | initialToggle
  | scrollListener
  | backToTopClickListener
  | anchorListeners (count : Nat)
  | animateScheduled (delay : Nat)
  | resizeListener
  | printButtonCreated
  | printButtonAppended
  | lazyImages
  | keydownListener
  | clickListener
  | loadListener
  | printStylesInjected
  deriving DecidableEq, Repr

/-- What the bootstrap reads from the page and the platform. -/
structure Page where
  backToTop : Option Element
  pageYOffset : Int
  anchorCount : Nat
  hasLegacySection : Bool
  nativeLazy : Bool
  hasIntersectionObserver : Bool
  lazyImages : List Image
  deriving DecidableEq, Repr

/-- The steps between the initial `toggleBackToTop()` call and the lazy image
loader (lines 33-143). -/
def bootHead (p : Page) : List BootStep :=
  [.scrollListener, .backToTopClickListener, .anchorListeners p.anchorCount,
   .animateScheduled 500, .resizeListener, .printButtonCreated] ++
  (if p.hasLegacySection then [.printButtonAppended] else [])

/-- Every step after the initial `toggleBackToTop()` call (lines 33-308). -/
def bootTail (p : Page) : List BootStep :=
  bootHead p ++
  [.lazyImages, .keydownListener, .clickListener, .loadListener, .printStylesInjected]

/-- Embedding of the `DOMContentLoaded` handler: the steps that ran, and the
error that ended it, if any.  An exception ends the handler where it is raised:
at the initial `toggleBackToTop()` call (line 30) or in the lazy image loader
(line 155). -/
def bootstrap (p : Page) : List BootStep × Option JsError :=
  match toggleBackToTop p.pageYOffset p.backToTop with
  | .error e => ([.bodyLoaded], some e)
  | .ok _ =>
    match lazyLoad p.nativeLazy p.hasIntersectionObserver p.lazyImages with
    | .error e => ([.bodyLoaded, .initialToggle] ++ bootHead p, some e)
    | .ok _ => ([.bodyLoaded, .initialToggle] ++ bootTail p, none)

/-! ## Keyboard / pointer focus mode (lines 179-190, 312-322) -/

/-- The two class lists that carry the focus-mode flags:
`document.documentElement.classList` and `document.body.classList`. -/
structure FocusState where
  rootClasses : List String
  bodyClasses : List String
  deriving DecidableEq, Repr

/-- Embedding of the guarded keydown handler (lines 179-190).  `activeTag` is
`document.activeElement.tagName`, `none` when `document.activeElement` is
`null`, where reading `tagName` raises a `TypeError`. -/
def guardedKeydown (key : String) (activeTag : Option String) (s : FocusState) :
    Except JsError FocusState :=
  match activeTag with
  | none => .error .typeError
  | some tag =>
    if tag = "INPUT" || tag = "TEXTAREA" then .ok s
    else if key = "Tab" then
      .ok { s with rootClasses := classAdd "user-is-tabbing" s.rootClasses }
    else .ok s

/-- Embedding of the global keydown handler (lines 312-316). -/
def globalKeydown (key : String) (s : FocusState) : FocusState :=
  if key = "Tab" then { s with bodyClasses := classAdd "keyboard-user" s.bodyClasses }
  else s

/-- Embedding of the global mousedown handler (lines 320-322). -/
def globalMousedown (s : FocusState) : FocusState :=
  { s with bodyClasses := classRemove "keyboard-user" s.bodyClasses }

/-- Input events of the focus-mode detector. -/
inductive FocusEvent where
  | keydown (key : String) (activeTag : Option String)
  | mousedown
  deriving DecidableEq, Repr

/-- Dispatch of one event to the registered listeners, in registration order.
`bootstrapped` says whether the lifecycle handler has registered the guarded
listener; a listener that throws leaves the state as it found it. -/
def focusStep (bootstrapped : Bool) (s : FocusState) : FocusEvent → FocusState
  | .keydown key activeTag =>
    let s1 := globalKeydown key s
    if bootstrapped then
      match guardedKeydown key activeTag s1 with
      | .ok s2 => s2
      | .error _ => s1
    else s1
  | .mousedown => globalMousedown s

/-- The focus-mode state after a sequence of events. -/
def focusRun (bootstrapped : Bool) (s : FocusState) (es : List FocusEvent) : FocusState :=
  es.foldl (focusStep bootstrapped) s

/-! ## Resize debounce (lines 123-130) -/

/-- The resize handler's state: the body class list, the pending timeouts whose
callback is the one of line 127 (identifier, deadline), the variable
`resizeTimer` (`none` while `undefined`) and the next timer identifier. -/
structure ResizeState where
  bodyClasses : List String
  timers : List (Nat × Nat)
  resizeTimer : Option Nat
  nextId : Nat
  deriving DecidableEq, Repr

/-- Platform model of `clearTimeout`: the timer with that identifier is dropped;
`undefined` and identifiers of timers that are gone are ignored. -/
def clearTimeout (id : Option Nat) (timers : List (Nat × Nat)) : List (Nat × Nat) :=
  match id with
  | none => timers
  | some i => timers.filter (fun t => t.1 ≠ i)

/-- Embedding of the resize listener (lines 124-130), run at time `now`. -/
def onResize (now : Nat) (s : ResizeState) : ResizeState :=
  { bodyClasses := classAdd "resize-animation-stopper" s.bodyClasses
    timers := clearTimeout s.resizeTimer s.timers ++ [(s.nextId, now + 400)]
    resizeTimer := some s.nextId
    nextId := s.nextId + 1 }

/-- Embedding of the timeout callback (line 128). -/
def resizeTimeout (body : List String) : List String :=
  classRemove "resize-animation-stopper" body

/-- Platform model of the event loop reaching time `t`: every pending timer whose
deadline has come runs its callback and leaves the queue. -/
def advance (t : Nat) (s : ResizeState) : ResizeState :=
  { s with
    bodyClasses := (s.timers.filter (fun x => x.2 ≤ t)).foldl
      (fun body _ => resizeTimeout body) s.bodyClasses
    timers := s.timers.filter (fun x => ¬ x.2 ≤ t) }

/-- Timed inputs of the debounce: a resize event at a time, or time passing. -/
inductive ResizeEvent where
  | resize (t : Nat)
  | tick (t : Nat)
  deriving DecidableEq, Repr

/-- One timed input: timers due by then fire first. -/
def resizeStep (s : ResizeState) : ResizeEvent → ResizeState
  | .resize t => onResize t (advance t s)
  | .tick t => advance t s

/-- The state when the listener is registered: no timer, `resizeTimer` undefined. -/
def resizeInit (body : List String) : ResizeState :=
  { bodyClasses := body, timers := [], resizeTimer := none, nextId := 0 }

/-- The state after a sequence of timed inputs. -/
def resizeRun (body : List String) (es : List ResizeEvent) : ResizeState :=
  es.foldl resizeStep (resizeInit body)

/-! ## Scroll-reveal animator (lines 78-117) -/

/-- The part of an animatable card the animator touches, with its two
registrations: the `scroll` listener `animateElement` and the observer target. -/
structure Card where
  classList : List String
  opacity : String
  transform : String
  transition : String
  scrollListening : Bool
  observed : Bool
  deriving DecidableEq, Repr

/-- Embedding of `animateElement` (lines 103-112); `elementTop` is
`element.getBoundingClientRect().top`. -/
def animateElement (elementTop innerHeight : Int) (c : Card) : Card :=
  let elementVisible : Int := 150
  if elementTop < innerHeight - elementVisible then
    { c with opacity := "1", transform := "translateY(0)", scrollListening := false }
  else c

/-- Embedding of the body of `elements.forEach` (lines 95-116). -/
def initCard (elementTop innerHeight : Int) (c : Card) : Card :=
  animateElement elementTop innerHeight
    { c with opacity := "0"
             transform := "translateY(20px)"
             transition := "opacity 0.6s ease-out, transform 0.6s ease-out"
             observed := true
             scrollListening := true }

/-- Embedding of the observer callback for one entry (lines 87-92). -/
def observerEntry (isIntersecting : Bool) (c : Card) : Card :=
  if isIntersecting then
    { c with classList := classAdd "animate" c.classList, observed := false }
  else c

/-- Events a card sees after initialisation. -/
inductive CardEvent where
  | scroll (elementTop innerHeight : Int)
  | intersection (isIntersecting : Bool)
  deriving DecidableEq, Repr

/-- Dispatch of one event: a scroll reaches `animateElement` while it is
registered, a notification reaches the callback while the card is observed. -/
def cardStep (c : Card) : CardEvent → Card
  | .scroll elementTop innerHeight =>
    if c.scrollListening then animateElement elementTop innerHeight c else c
  | .intersection isIntersecting =>
    if c.observed then observerEntry isIntersecting c else c

/-- The card after a sequence of events. -/
def cardRun (c : Card) (es : List CardEvent) : Card :=
  es.foldl cardStep c

/-- Whether the manual check writes the revealed style at this event. -/
def manualFires (c : Card) : CardEvent → Bool
  | .scroll elementTop innerHeight => c.scrollListening && decide (elementTop < innerHeight - 150)
  | .intersection _ => false

/-- Whether the watcher adds the `animate` class at this event. -/
def watcherFires (c : Card) : CardEvent → Bool
  | .scroll _ _ => false
  | .intersection isIntersecting => c.observed && isIntersecting

/-- Number of events of a run at which `fires` holds in the state they meet. -/
def countFires (fires : Card → CardEvent → Bool) : Card → List CardEvent → Nat
  | _, [] => 0
  | c, e :: es => (if fires c e then 1 else 0) + countFires fires (cardStep c e) es

/-- The hidden style written at initialisation. -/
def isHidden (c : Card) : Bool :=
  c.opacity = "0" && c.transform = "translateY(20px)"

/-- The revealed style written by the manual check. -/
def isShown (c : Card) : Bool :=
  c.opacity = "1" && c.transform = "translateY(0)"

/-- Invariant of an initialised card: while `animateElement` is registered the
card has the hidden style, and once it is not, the revealed style. -/
def styleTracksListener (c : Card) : Bool :=
  if c.scrollListening then isHidden c else isShown c

/-- A card as the markup gives it. -/
def plainCard : Card :=
  { classList := ["fact-card"], opacity := "", transform := "", transition := ""
    scrollListening := false, observed := false }

/-- Invariant of the debounce: every pending timer is the one `resizeTimer` names. -/
def TimersTracked (s : ResizeState) : Prop :=
  ∀ x ∈ s.timers, s.resizeTimer = some x.1

/-! ## Sample inputs -/

/-- A back-to-top control as the markup gives it: no class, no inline style. -/
def plainButton : Element :=
  { classList := [], opacity := "", visibility := "" }

/-- A page that resolves `#biography` to an element 640 units below the viewport
top, scrolled to offset 250, with `history.pushState` present. -/
def sampleEnv : ClickEnv :=
  { querySelector := fun sel => if sel = "#biography" then .found 640 else .missing
    pageYOffset := 250
    hasPushState := true }

/-- The same page on a platform without `history.pushState`. -/
def legacyEnv : ClickEnv :=
  { sampleEnv with hasPushState := false }

/-- A fresh tab: one history entry, nothing scrolled, no fragment. -/
def sampleBrowser : Browser :=
  { history := { entries := ["/index.html"], index := 0 }
    locationHash := ""
    defaultPrevented := false
    scrolls := [] }

/-- A deferred image that has finished loading and has no class yet. -/
def loadedImage : Image :=
  { complete := true, classList := [], loading := "lazy", src := "kalam.jpg"
    dataSrc := none, loadListeners := [], observed := false }

/-- A deferred image still loading. -/
def pendingImage : Image :=
  { loadedImage with complete := false }

/-- Focus-mode state of a page on which Tab has been pressed outside a text field. -/
def tabbingState : FocusState :=
  { rootClasses := ["user-is-tabbing"], bodyClasses := ["loaded", "keyboard-user"] }

/-! ## Theorems: back-to-top control -/

theorem classAdd_mem (c : String) (cl : List String) : c ∈ classAdd c cl := by
  unfold classAdd
  split
  · assumption
  · simp

theorem classAdd_keeps (c d : String) (cl : List String) (h : d ∈ cl) :
    d ∈ classAdd c cl := by
  unfold classAdd
  split
  · exact h
  · simp [h]

theorem classRemove_not_mem (c : String) (cl : List String) : c ∉ classRemove c cl := by
  simp [classRemove]

theorem onScroll_keeps_visible (b : Element) (y : Int)
    (h : "visible" ∈ b.classList) : "visible" ∈ (onScroll b y).classList := by
  unfold onScroll toggleBackToTop
  by_cases hy : y > 300
  · simp only [hy, if_true]
    exact classAdd_keeps _ _ _ h
  · simp only [hy, if_false]
    exact h

theorem scrollRun_keeps_visible (offsets : List Int) (b : Element)
    (h : "visible" ∈ b.classList) : "visible" ∈ (scrollRun b offsets).classList := by
  induction offsets generalizing b with
  | nil => exact h
  | cons y ys ih => exact ih _ (onScroll_keeps_visible b y h)

theorem scrollRun_append (b : Element) (xs ys : List Int) :
    scrollRun b (xs ++ ys) = scrollRun (scrollRun b xs) ys := by
  simp [scrollRun, List.foldl_append]

/-- C1: for every scroll offset `y`, `toggleBackToTop` with `pageYOffset = y` on
an existing control succeeds and leaves it hidden (opacity '0', visibility
'hidden') when `y ≤ 300` and visible (opacity '1', visibility 'visible') when
`y > 300`; at 300 it is hidden, at 301 visible. -/
theorem toggleBackToTop_threshold (b : Element) (y : Int) :
    (∃ b', toggleBackToTop y (some b) = .ok b' ∧
      b'.opacity = (if y ≤ 300 then "0" else "1") ∧
      b'.visibility = (if y ≤ 300 then "hidden" else "visible")) ∧
    (toggleBackToTop 300 (some b)).map (fun e => (e.opacity, e.visibility))
      = .ok ("0", "hidden") ∧
    (toggleBackToTop 301 (some b)).map (fun e => (e.opacity, e.visibility))
      = .ok ("1", "visible") := by
  refine ⟨?_, ?_, ?_⟩
  · by_cases hy : y > 300
    · have hn : ¬ y ≤ 300 := by omega
      exact ⟨_, by simp only [toggleBackToTop, hy, if_true]; rfl, by simp [hn], by simp [hn]⟩
    · have hn : y ≤ 300 := by omega
      exact ⟨_, by simp only [toggleBackToTop, hy, if_false]; rfl, by simp [hn], by simp [hn]⟩
  · simp [toggleBackToTop, Except.map]
  · simp [toggleBackToTop, Except.map]

/-- C10: over any sequence of scroll offsets the 'visible' class is never removed:
once an offset above 300 has been seen the control carries the class after every
later offset, and after a later offset of at most 300 it carries the class
while its inline opacity is '0' and its visibility 'hidden'. -/
theorem visible_class_never_removed (b : Element) (pre mid post : List Int) (y z : Int)
    (hy : y > 300) (hz : z ≤ 300) :
    "visible" ∈ (scrollRun b (pre ++ y :: post)).classList ∧
    "visible" ∈ (scrollRun b (pre ++ y :: (mid ++ [z]))).classList ∧
    (scrollRun b (pre ++ y :: (mid ++ [z]))).opacity = "0" ∧
    (scrollRun b (pre ++ y :: (mid ++ [z]))).visibility = "hidden" := by
  have hseen : ∀ rest, "visible" ∈ (scrollRun b (pre ++ y :: rest)).classList := by
    intro rest
    rw [scrollRun_append]
    show "visible" ∈ (scrollRun (onScroll (scrollRun b pre) y) rest).classList
    apply scrollRun_keeps_visible
    simp only [onScroll, toggleBackToTop, hy, if_true]
    exact classAdd_mem _ _
  have hlast : scrollRun b (pre ++ y :: (mid ++ [z]))
      = onScroll (scrollRun b (pre ++ y :: mid)) z := by
    have : pre ++ y :: (mid ++ [z]) = (pre ++ y :: mid) ++ [z] := by simp
    rw [this, scrollRun_append]
    rfl
  have hz' : ¬ z > 300 := by omega
  refine ⟨hseen post, hseen (mid ++ [z]), ?_, ?_⟩
  · rw [hlast]; simp [onScroll, toggleBackToTop, hz']
  · rw [hlast]; simp [onScroll, toggleBackToTop, hz']

/-- Witness of C10: offsets 0, 500, 120, 40 on the plain control. -/
theorem visible_class_never_removed_witness :
    "visible" ∈ (scrollRun plainButton [0, 500, 120, 40]).classList ∧
    (scrollRun plainButton [0, 500, 120, 40]).opacity = "0" ∧
    (scrollRun plainButton [0, 500, 120, 40]).visibility = "hidden" :=
  (visible_class_never_removed plainButton [0] [120] [] 500 40 (by decide) (by decide)).2

/-! ## Theorems: lifecycle bootstrap -/

/-- C3: on a page without the 'back-to-top' element the bootstrap ends with a
`TypeError` at its initial `toggleBackToTop()` call: only the first statement
has run and none of the later steps does. -/
theorem bootstrap_missing_button_throws (p : Page) :
    bootstrap { p with backToTop := none } = ([.bodyLoaded], some .typeError) ∧
    ∀ step ∈ bootTail p, step ∉ (bootstrap { p with backToTop := none }).1 := by
  refine ⟨rfl, ?_⟩
  intro step hstep
  have hb : (bootstrap { p with backToTop := none }).1 = [.bodyLoaded] := rfl
  rw [hb]
  intro hmem
  simp only [List.mem_singleton] at hmem
  subst hmem
  cases hl : p.hasLegacySection <;> simp [bootTail, bootHead, hl] at hstep

/-- On a page that has the control, the bootstrap runs every step when native
lazy loading or `IntersectionObserver` is there, and otherwise ends with a
`ReferenceError` at the lazy image loader, the later listeners unregistered. -/
theorem bootstrap_with_button (p : Page) (b : Element) :
    bootstrap { p with backToTop := some b } =
      (if p.nativeLazy || p.hasIntersectionObserver then
        ([.bodyLoaded, .initialToggle] ++ bootTail p, none)
      else ([.bodyLoaded, .initialToggle] ++ bootHead p, some .referenceError)) := by
  unfold bootstrap toggleBackToTop lazyLoad
  by_cases hy : p.pageYOffset > 300 <;>
    cases hn : p.nativeLazy <;> cases hi : p.hasIntersectionObserver <;>
    simp [hy, hn, hi, bootTail, bootHead]

/-! ## Theorems: anchor smooth-scroll -/

theorem anchorClick_found_eq (env : ClickEnv) (href : String) (t : Int)
    (hne : href ≠ "#") (hq : env.querySelector href = .found t) :
    anchorClick env href =
      ([.preventDefault, .scrollTo (t + env.pageYOffset - 100) "smooth",
        if env.hasPushState then .pushState href else .setHash href], none) := by
  simp [anchorClick, hne, hq]

theorem assignHash_defaultPrevented (b : Browser) (hash : String) :
    (assignHash b hash).defaultPrevented = b.defaultPrevented := by
  unfold assignHash
  split <;> rfl

theorem assignHash_scrolls (b : Browser) (hash : String) :
    (assignHash b hash).scrolls = b.scrolls := by
  unfold assignHash
  split <;> rfl

/-- C2: a click on an anchor whose href resolves to an element with viewport top
`t`, at scroll offset `s`, raises nothing, prevents default navigation and
issues exactly one scroll request, to offset `t + s - 100`; a click on a bare
'#' issues no request at all and leaves the default navigation alone. -/
theorem anchorClick_scroll_target (env : ClickEnv) (href : String) (t : Int) (b : Browser)
    (hne : href ≠ "#") (hq : env.querySelector href = .found t) :
    (anchorClick env href).2 = none ∧
    Effect.preventDefault ∈ (anchorClick env href).1 ∧
    scrollRequests (anchorClick env href).1
      = [.scrollTo (t + env.pageYOffset - 100) "smooth"] ∧
    (clickOn env href b).defaultPrevented = true ∧
    (clickOn env href b).scrolls = b.scrolls ++ [t + env.pageYOffset - 100] ∧
    anchorClick env "#" = ([], none) ∧
    clickOn env "#" b = b := by
  have h := anchorClick_found_eq env href t hne hq
  refine ⟨?_, ?_, ?_, ?_, ?_, ?_, ?_⟩
  · rw [h]
  · rw [h]; simp
  · rw [h]; cases env.hasPushState <;> simp [scrollRequests]
  · rw [clickOn, h]
    cases env.hasPushState <;> simp [applyEffect, assignHash_defaultPrevented]
  · rw [clickOn, h]
    cases env.hasPushState <;> simp [applyEffect, assignHash_scrolls]
  · simp [anchorClick]
  · simp [clickOn, anchorClick]

/-- Witness of C2: `#biography` at viewport top 640, scroll offset 250. -/
theorem anchorClick_scroll_target_witness :
    (clickOn sampleEnv "#biography" sampleBrowser).defaultPrevented = true ∧
    (clickOn sampleEnv "#biography" sampleBrowser).scrolls = [790] ∧
    clickOn sampleEnv "#" sampleBrowser = sampleBrowser :=
  have h := anchorClick_scroll_target sampleEnv "#biography" 640 sampleBrowser
    (by decide) (by simp [sampleEnv])
  ⟨h.2.2.2.1, h.2.2.2.2.1, h.2.2.2.2.2.2⟩

/-- C4, as stated, fails: with `history.pushState` present a click on a resolving
anchor in a tab with one history entry leaves two entries, where replacing the
current entry would leave one. -/
theorem click_grows_history :
    sampleBrowser.history.entries.length = 1 ∧
    (clickOn sampleEnv "#biography" sampleBrowser).history.entries.length = 2 ∧
    (clickOn sampleEnv "#biography" sampleBrowser).history
      ≠ sampleBrowser.history.replaceState "#biography" := by
  have h := anchorClick_found_eq sampleEnv "#biography" 640 (by decide) (by simp [sampleEnv])
  refine ⟨rfl, ?_, ?_⟩
  · rw [clickOn, h]
    simp [sampleEnv, applyEffect, History.pushState, sampleBrowser]
  · rw [clickOn, h]
    simp [sampleEnv, applyEffect, History.pushState, History.replaceState, sampleBrowser]

/-- C4, amended: a click on a resolving anchor, with history manipulation
present, pushes a new history entry for the hash after the current one (the
entries up to the current one are kept, the new entry becomes current, and from
the last entry the number of entries grows by one); without it the hash is
assigned to the location, which appends such an entry as well unless the hash
is the current one. -/
theorem click_pushes_history (env : ClickEnv) (href : String) (t : Int) (b : Browser)
    (hne : href ≠ "#") (hq : env.querySelector href = .found t) :
    (clickOn env href b).locationHash = href ∧
    (clickOn env href b).history
      = (if env.hasPushState then b.history.pushState href
         else if b.locationHash = href then b.history
         else b.history.pushState href) ∧
    (b.history.pushState href).entries
      = b.history.entries.take (b.history.index + 1) ++ [href] ∧
    (b.history.pushState href).index = b.history.index + 1 ∧
    (b.history.index + 1 = b.history.entries.length →
      (b.history.pushState href).entries.length = b.history.entries.length + 1) := by
  have h := anchorClick_found_eq env href t hne hq
  refine ⟨?_, ?_, rfl, rfl, ?_⟩
  · rw [clickOn, h]
    cases env.hasPushState
    · by_cases hc : b.locationHash = href <;> simp [applyEffect, assignHash, hc]
    · simp [applyEffect]
  · rw [clickOn, h]
    cases env.hasPushState
    · by_cases hc : b.locationHash = href <;> simp [applyEffect, assignHash, hc]
    · simp [applyEffect]
  · intro hlast
    simp [History.pushState, hlast]

/-- Witness of C4 amended: the click in a fresh tab, with `history.pushState` and
without it. -/
theorem click_pushes_history_witness :
    (clickOn sampleEnv "#biography" sampleBrowser).locationHash = "#biography" ∧
    (clickOn sampleEnv "#biography" sampleBrowser).history
      = { entries := ["/index.html", "#biography"], index := 1 } ∧
    (clickOn legacyEnv "#biography" sampleBrowser).history
      = { entries := ["/index.html", "#biography"], index := 1 } :=
  have h := click_pushes_history sampleEnv "#biography" 640 sampleBrowser
    (by decide) (by simp [sampleEnv])
  have h' := click_pushes_history legacyEnv "#biography" 640 sampleBrowser
    (by decide) (by simp [legacyEnv, sampleEnv])
  ⟨h.1, h.2.1, h'.2.1⟩

/-! ## Theorems: lazy image loader -/

theorem dispatchLoad_fold_keeps (ls : List LoadListener) (i : Image)
    (h : "loaded" ∈ i.classList) :
    "loaded" ∈ (ls.foldl (fun i l => match l with
      | .addLoadedClass => { i with classList := classAdd "loaded" i.classList }) i).classList := by
  induction ls generalizing i with
  | nil => exact h
  | cons l ls ih =>
    cases l
    exact ih _ (classAdd_keeps _ _ _ h)

theorem dispatchLoad_fallback_loaded (img : Image) :
    "loaded" ∈ (dispatchLoad (fallbackImage img)).classList := by
  unfold dispatchLoad fallbackImage
  cases hc : img.complete
  · simp only [Bool.false_eq_true, if_false, List.foldl_append, List.foldl_cons, List.foldl_nil]
    exact classAdd_mem _ _
  · simp only [if_true]
    exact dispatchLoad_fold_keeps _ _ (classAdd_mem _ _)

/-- C5, as stated, fails: with native lazy loading present an image that has
finished loading leaves the handler without the 'loaded' class, and an image
still loading has no load listener and stays without the class on its load
event. -/
theorem native_lazy_adds_no_loaded_class :
    lazyLoad true true [loadedImage, pendingImage]
      = .ok { images := [loadedImage, { pendingImage with loading := "lazy" }]
              observerCreated := false } ∧
    "loaded" ∉ loadedImage.classList ∧
    "loaded" ∉ (dispatchLoad { pendingImage with loading := "lazy" }).classList := by
  refine ⟨rfl, ?_, ?_⟩
  · simp [loadedImage]
  · simp [dispatchLoad, pendingImage, loadedImage]

/-- Without native lazy loading and without `IntersectionObserver` the loader
ends with a `ReferenceError` before it visits any image. -/
theorem lazyLoad_without_observer (images : List Image) :
    lazyLoad false false images = .error .referenceError := rfl

/-- C5, amended: without native lazy loading, on a platform that has
`IntersectionObserver`, the handler visits every deferred image and creates the
intersection observer: an image that has finished loading gets the 'loaded'
class at once and no load listener; an image that has not keeps its class list
as it was and gets one more load listener, which adds the class on the load
event.  With native lazy loading the handler only re-asserts
`loading = 'lazy'`, leaving class list and load listeners as they were, and
creates no observer. -/
theorem lazyLoad_loaded_class (images : List Image) (img : Image)
    (hasIntersectionObserver : Bool) :
    lazyLoad false true images
      = .ok { images := images.map fallbackImage, observerCreated := true } ∧
    (fallbackImage img).classList
      = (if img.complete then classAdd "loaded" img.classList else img.classList) ∧
    (fallbackImage img).loadListeners
      = (if img.complete then img.loadListeners
         else img.loadListeners ++ [.addLoadedClass]) ∧
    "loaded" ∈ (if img.complete then fallbackImage img
      else dispatchLoad (fallbackImage img)).classList ∧
    lazyLoad true hasIntersectionObserver images
      = .ok { images := images.map nativeImage, observerCreated := false } ∧
    (nativeImage img).classList = img.classList ∧
    (nativeImage img).loadListeners = img.loadListeners ∧
    (nativeImage img).loading = "lazy" := by
  refine ⟨rfl, ?_, ?_, ?_, rfl, rfl, rfl, rfl⟩
  · cases hc : img.complete <;> simp [fallbackImage, hc]
  · cases hc : img.complete <;> simp [fallbackImage, hc]
  · cases hc : img.complete
    · simp only [Bool.false_eq_true, if_false]
      exact dispatchLoad_fallback_loaded img
    · simp only [if_true, fallbackImage, hc]
      exact classAdd_mem _ _

/-- Witness of C5 amended: of two deferred images the finished one has the class
when the handler returns; the other has only a listener then and the class
after its load event. -/
theorem lazyLoad_loaded_class_witness :
    lazyLoad false true [loadedImage, pendingImage]
      = .ok { images := [fallbackImage loadedImage, fallbackImage pendingImage]
              observerCreated := true } ∧
    (fallbackImage loadedImage).classList = ["loaded"] ∧
    (fallbackImage pendingImage).classList = [] ∧
    (fallbackImage pendingImage).loadListeners = [.addLoadedClass] ∧
    "loaded" ∈ (dispatchLoad (fallbackImage pendingImage)).classList :=
  have h := lazyLoad_loaded_class [loadedImage, pendingImage] pendingImage true
  have h' := lazyLoad_loaded_class [] loadedImage true
  ⟨h.1, h'.2.1, h.2.1, h.2.2.1, h.2.2.2.1⟩

/-! ## Theorems: focus mode -/

theorem globalMousedown_clears (s : FocusState) :
    "keyboard-user" ∉ (globalMousedown s).bodyClasses :=
  classRemove_not_mem _ _

theorem focusStep_root_mono (boot : Bool) (s : FocusState) (e : FocusEvent) (c : String)
    (h : c ∈ s.rootClasses) : c ∈ (focusStep boot s e).rootClasses := by
  cases e with
  | mousedown => exact h
  | keydown key activeTag =>
    have h1 : c ∈ (globalKeydown key s).rootClasses := by
      unfold globalKeydown; split <;> exact h
    unfold focusStep
    cases boot
    · simpa using h1
    · simp only [if_true]
      cases activeTag with
      | none => simpa [guardedKeydown] using h1
      | some tag =>
        unfold guardedKeydown
        by_cases ht : (tag = "INPUT" || tag = "TEXTAREA") = true
        · simpa [ht] using h1
        · by_cases hk : key = "Tab"
          · simp only [ht, hk, if_true]
            exact classAdd_keeps _ _ _ (by simpa [hk] using h1)
          · simpa [ht, hk] using h1

theorem focusRun_root_mono (boot : Bool) (es : List FocusEvent) (s : FocusState) (c : String)
    (h : c ∈ s.rootClasses) : c ∈ (focusRun boot s es).rootClasses := by
  induction es generalizing s with
  | nil => exact h
  | cons e es ih => exact ih _ (focusStep_root_mono boot s e c h)

/-- C6: a Tab keydown while the active element is neither INPUT nor TEXTAREA
leaves user-is-tabbing on the root element; every event sequence that ends with
a mousedown leaves keyboard-user absent from the body, in particular
[Tab, Tab, mousedown]. -/
theorem focus_mode_tab_then_pointer (boot : Bool) (s : FocusState) (tag : String)
    (es : List FocusEvent) (hi : tag ≠ "INPUT") (ht : tag ≠ "TEXTAREA") :
    (∃ s', guardedKeydown "Tab" (some tag) s = .ok s' ∧ "user-is-tabbing" ∈ s'.rootClasses) ∧
    "user-is-tabbing" ∈ (focusStep true s (.keydown "Tab" (some tag))).rootClasses ∧
    "keyboard-user" ∉ (focusRun boot s (es ++ [.mousedown])).bodyClasses ∧
    "keyboard-user" ∉ (focusRun boot s
      [.keydown "Tab" (some tag), .keydown "Tab" (some tag), .mousedown]).bodyClasses := by
  have hg : ∀ s0 : FocusState, guardedKeydown "Tab" (some tag) s0
      = .ok { s0 with rootClasses := classAdd "user-is-tabbing" s0.rootClasses } := by
    intro s0
    simp [guardedKeydown, hi, ht]
  have hend : ∀ l : List FocusEvent,
      "keyboard-user" ∉ (focusRun boot s (l ++ [.mousedown])).bodyClasses := by
    intro l
    simp only [focusRun, List.foldl_append, List.foldl_cons, List.foldl_nil]
    exact globalMousedown_clears _
  refine ⟨⟨_, hg s, classAdd_mem _ _⟩, ?_, hend es, ?_⟩
  · simp only [focusStep, if_true, hg]
    exact classAdd_mem _ _
  · exact hend [.keydown "Tab" (some tag), .keydown "Tab" (some tag)]

/-- Witness of C6: Tab pressed twice on a link, then a mousedown. -/
theorem focus_mode_tab_then_pointer_witness :
    "user-is-tabbing" ∈ (focusStep true ⟨[], []⟩ (.keydown "Tab" (some "A"))).rootClasses ∧
    "keyboard-user" ∉ (focusRun true ⟨[], []⟩
      [.keydown "Tab" (some "A"), .keydown "Tab" (some "A"), .mousedown]).bodyClasses :=
  have h := focus_mode_tab_then_pointer true ⟨[], []⟩ "A" [] (by decide) (by decide)
  ⟨h.2.1, h.2.2.2⟩

/-- C7, as stated, fails: after a mousedown on a page whose root element carries
user-is-tabbing the class is still there, also when it came from a Tab press. -/
theorem mousedown_keeps_tabbing :
    "user-is-tabbing" ∈ (focusStep true tabbingState .mousedown).rootClasses ∧
    "user-is-tabbing" ∈ (focusRun true ⟨[], []⟩
      [.keydown "Tab" (some "A"), .mousedown]).rootClasses := by
  constructor
  · simp [focusStep, globalMousedown, tabbingState]
  · simp [focusRun, focusStep, globalMousedown, globalKeydown, guardedKeydown, classAdd]

/-- C7, amended: the user-is-tabbing class on the root element is set by a Tab
keypress made outside INPUT and TEXTAREA and no event clears it: a mousedown
leaves the root element's class list as it was (it removes keyboard-user
from the body), and a class the root element carries survives every sequence of
events. -/
theorem tabbing_flag_never_cleared (boot : Bool) (s : FocusState) (tag : String)
    (es : List FocusEvent) (hi : tag ≠ "INPUT") (ht : tag ≠ "TEXTAREA") :
    "user-is-tabbing" ∈ (focusStep true s (.keydown "Tab" (some tag))).rootClasses ∧
    (focusStep boot s .mousedown).rootClasses = s.rootClasses ∧
    "keyboard-user" ∉ (focusStep boot s .mousedown).bodyClasses ∧
    "user-is-tabbing" ∈
      (focusRun boot (focusStep true s (.keydown "Tab" (some tag))) es).rootClasses := by
  have h1 : "user-is-tabbing" ∈ (focusStep true s (.keydown "Tab" (some tag))).rootClasses := by
    simp only [focusStep, if_true, guardedKeydown]
    simp only [hi, ht, decide_False, Bool.or_self, Bool.false_eq_true, if_false, if_true]
    exact classAdd_mem _ _
  exact ⟨h1, rfl, globalMousedown_clears _, focusRun_root_mono boot es _ _ h1⟩

/-- Witness of C7 amended: Tab on a link, then mousedown, Tab in a text field,
and another mousedown. -/
theorem tabbing_flag_never_cleared_witness :
    "user-is-tabbing" ∈ (focusRun true (focusStep true ⟨[], []⟩ (.keydown "Tab" (some "A")))
      [.mousedown, .keydown "Tab" (some "INPUT"), .mousedown]).rootClasses :=
  (tabbing_flag_never_cleared true ⟨[], []⟩ "A"
    [.mousedown, .keydown "Tab" (some "INPUT"), .mousedown] (by decide) (by decide)).2.2.2

/-! ## Theorems: resize debounce -/

theorem timersTracked_init (body : List String) : TimersTracked (resizeInit body) := by
  intro x hx
  simp [resizeInit] at hx

theorem timersTracked_advance (t : Nat) (s : ResizeState) (h : TimersTracked s) :
    TimersTracked (advance t s) := by
  intro x hx
  simp only [advance, List.mem_filter] at hx
  exact h x hx.1

theorem clearTimeout_tracked (s : ResizeState) (h : TimersTracked s) :
    clearTimeout s.resizeTimer s.timers = [] := by
  cases hr : s.resizeTimer with
  | none =>
    cases hts : s.timers with
    | nil => rfl
    | cons x xs =>
      have := h x (by simp [hts])
      rw [hr] at this
      cases this
  | some i =>
    simp only [clearTimeout, List.filter_eq_nil_iff]
    intro x hx
    have := h x hx
    rw [hr] at this
    simp only [Option.some.injEq] at this
    simp [this]

theorem onResize_timers (now : Nat) (s : ResizeState) (h : TimersTracked s) :
    (onResize now s).timers = [(s.nextId, now + 400)] := by
  simp [onResize, clearTimeout_tracked s h]

theorem timersTracked_onResize (now : Nat) (s : ResizeState) (h : TimersTracked s) :
    TimersTracked (onResize now s) := by
  intro x hx
  rw [onResize_timers now s h] at hx
  simp only [List.mem_singleton] at hx
  subst hx
  rfl

theorem timersTracked_step (s : ResizeState) (e : ResizeEvent) (h : TimersTracked s) :
    TimersTracked (resizeStep s e) := by
  cases e with
  | resize t => exact timersTracked_onResize t _ (timersTracked_advance t s h)
  | tick t => exact timersTracked_advance t s h

theorem timersTracked_fold (es : List ResizeEvent) (s : ResizeState) (h : TimersTracked s) :
    TimersTracked (es.foldl resizeStep s) := by
  induction es generalizing s with
  | nil => exact h
  | cons e es ih => exact ih _ (timersTracked_step s e h)

theorem timersTracked_run (body : List String) (es : List ResizeEvent) :
    TimersTracked (resizeRun body es) :=
  timersTracked_fold es _ (timersTracked_init body)

theorem advance_single (s : ResizeState) (id d t : Nat) (h : s.timers = [(id, d)]) :
    (advance t s).bodyClasses
      = (if d ≤ t then resizeTimeout s.bodyClasses else s.bodyClasses) ∧
    (advance t s).timers = (if d ≤ t then [] else [(id, d)]) := by
  unfold advance
  rw [h]
  by_cases hd : d ≤ t
  · simp [hd]
  · simp [hd]
    omega

/-- C8: after any history of resize events and timer firings, a resize event at
time `L` sets the resize-animation-stopper flag at once and leaves exactly one
pending timer, due at `L + 400`; with no further resize the flag is present at
every time before `L + 400` and cleared, with no timer left, from `L + 400` on. -/
theorem resize_debounce (body : List String) (es : List ResizeEvent) (L t : Nat) :
    "resize-animation-stopper" ∈ (resizeRun body (es ++ [.resize L])).bodyClasses ∧
    (∃ id, (resizeRun body (es ++ [.resize L])).timers = [(id, L + 400)] ∧
      (resizeRun body (es ++ [.resize L])).resizeTimer = some id) ∧
    ("resize-animation-stopper" ∈ (resizeRun body (es ++ [.resize L, .tick t])).bodyClasses
      ↔ t < L + 400) ∧
    ((resizeRun body (es ++ [.resize L, .tick t])).timers = [] ↔ L + 400 ≤ t) := by
  have hrun : ∀ l, resizeRun body (es ++ l) = l.foldl resizeStep (resizeRun body es) := by
    intro l
    simp [resizeRun, List.foldl_append]
  have hinv := timersTracked_advance L _ (timersTracked_run body es)
  have htim := onResize_timers L _ hinv
  have hflag : "resize-animation-stopper"
      ∈ (onResize L (advance L (resizeRun body es))).bodyClasses := classAdd_mem _ _
  obtain ⟨hb, hq⟩ := advance_single _ _ _ t htim
  rw [hrun, hrun]
  simp only [List.foldl_cons, List.foldl_nil, resizeStep]
  refine ⟨hflag, ⟨_, htim, rfl⟩, ?_, ?_⟩
  · rw [hb]
    by_cases ht : L + 400 ≤ t
    · have hn : ¬ t < L + 400 := by omega
      rw [if_pos ht]
      simp only [hn, iff_false]
      exact classRemove_not_mem _ _
    · have hn : t < L + 400 := by omega
      rw [if_neg ht]
      simp only [hn, iff_true]
      exact hflag
  · rw [hq]
    by_cases ht : L + 400 ≤ t <;> simp [ht]

/-! ## Theorems: scroll-reveal animator -/

theorem cardStep_listening (c : Card) (e : CardEvent)
    (h : (cardStep c e).scrollListening = true) : c.scrollListening = true := by
  cases e with
  | scroll top ih =>
    cases hl : c.scrollListening with
    | true => rfl
    | false => simp [cardStep, hl] at h
  | intersection b =>
    cases hb : b <;> cases ho : c.observed <;> simpa [cardStep, observerEntry, hb, ho] using h

theorem cardStep_observed (c : Card) (e : CardEvent)
    (h : (cardStep c e).observed = true) : c.observed = true := by
  cases e with
  | scroll top ih =>
    cases hl : c.scrollListening with
    | false => simpa [cardStep, hl] using h
    | true =>
      by_cases hc : top < ih - 150
      · simpa [cardStep, hl, animateElement, hc] using h
      · simpa [cardStep, hl, animateElement, hc] using h
  | intersection b =>
    cases ho : c.observed with
    | true => rfl
    | false => simp [cardStep, ho] at h

theorem manualFires_step (c : Card) (e : CardEvent) (h : manualFires c e = true) :
    c.scrollListening = true ∧ (cardStep c e).scrollListening = false ∧
      isShown (cardStep c e) = true := by
  cases e with
  | intersection b => simp [manualFires] at h
  | scroll top ih =>
    simp only [manualFires, Bool.and_eq_true, decide_eq_true_eq] at h
    simp [cardStep, h.1, animateElement, h.2, isShown]

theorem watcherFires_step (c : Card) (e : CardEvent) (h : watcherFires c e = true) :
    c.observed = true ∧ (cardStep c e).observed = false ∧
      "animate" ∈ (cardStep c e).classList := by
  cases e with
  | scroll top ih => simp [watcherFires] at h
  | intersection b =>
    simp only [watcherFires, Bool.and_eq_true] at h
    simp only [cardStep, h.1, h.2, observerEntry, if_true, true_and]
    exact classAdd_mem _ _

theorem countFires_manual_le (es : List CardEvent) (c : Card) :
    countFires manualFires c es ≤ if c.scrollListening then 1 else 0 := by
  induction es generalizing c with
  | nil => simp [countFires]
  | cons e es ih =>
    simp only [countFires]
    have hrest := ih (cardStep c e)
    by_cases hf : manualFires c e = true
    · obtain ⟨h1, h2, _⟩ := manualFires_step c e hf
      rw [if_neg (by simp [h2])] at hrest
      rw [if_pos hf, if_pos h1]
      omega
    · rw [if_neg hf]
      by_cases hl : (cardStep c e).scrollListening = true
      · rw [if_pos hl] at hrest
        rw [if_pos (cardStep_listening c e hl)]
        omega
      · rw [if_neg hl] at hrest
        omega

theorem countFires_watcher_le (es : List CardEvent) (c : Card) :
    countFires watcherFires c es ≤ if c.observed then 1 else 0 := by
  induction es generalizing c with
  | nil => simp [countFires]
  | cons e es ih =>
    simp only [countFires]
    have hrest := ih (cardStep c e)
    by_cases hf : watcherFires c e = true
    · obtain ⟨h1, h2, _⟩ := watcherFires_step c e hf
      rw [if_neg (by simp [h2])] at hrest
      rw [if_pos hf, if_pos h1]
      omega
    · rw [if_neg hf]
      by_cases hl : (cardStep c e).observed = true
      · rw [if_pos hl] at hrest
        rw [if_pos (cardStep_observed c e hl)]
        omega
      · rw [if_neg hl] at hrest
        omega

theorem cardRun_append (c : Card) (xs ys : List CardEvent) :
    cardRun c (xs ++ ys) = cardRun (cardRun c xs) ys := by
  simp [cardRun, List.foldl_append]

theorem cardStep_shown (c : Card) (e : CardEvent) (h : isShown c = true) :
    isShown (cardStep c e) = true := by
  cases e with
  | scroll top ih =>
    simp only [cardStep, animateElement]
    split
    · split
      · simp [isShown]
      · exact h
    · exact h
  | intersection b =>
    simp only [cardStep, observerEntry]
    split
    · split
      · exact h
      · exact h
    · exact h

theorem cardStep_animate (c : Card) (e : CardEvent) (h : "animate" ∈ c.classList) :
    "animate" ∈ (cardStep c e).classList := by
  cases e with
  | scroll top ih =>
    simp only [cardStep, animateElement]
    split
    · split
      · exact h
      · exact h
    · exact h
  | intersection b =>
    simp only [cardStep, observerEntry]
    split
    · split
      · exact classAdd_keeps _ _ _ h
      · exact h
    · exact h

theorem cardStep_tracks (c : Card) (e : CardEvent) (h : styleTracksListener c = true) :
    styleTracksListener (cardStep c e) = true := by
  cases e with
  | scroll top ih =>
    simp only [cardStep, animateElement]
    split
    · split
      · simp [styleTracksListener, isShown]
      · exact h
    · exact h
  | intersection b =>
    simp only [cardStep, observerEntry]
    split
    · split
      · exact h
      · exact h
    · exact h

theorem initCard_tracks (top ih : Int) (c : Card) :
    styleTracksListener (initCard top ih c) = true := by
  simp only [initCard, animateElement]
  split
  · simp [styleTracksListener, isShown]
  · simp [styleTracksListener, isHidden]

theorem initCard_observed (top ih : Int) (c : Card) :
    (initCard top ih c).observed = true := by
  simp only [initCard, animateElement]
  split <;> rfl

theorem cardRun_shown (es : List CardEvent) (c : Card) (h : isShown c = true) :
    isShown (cardRun c es) = true := by
  induction es generalizing c with
  | nil => exact h
  | cons e es ih => exact ih _ (cardStep_shown c e h)

theorem cardRun_animate (es : List CardEvent) (c : Card) (h : "animate" ∈ c.classList) :
    "animate" ∈ (cardRun c es).classList := by
  induction es generalizing c with
  | nil => exact h
  | cons e es ih => exact ih _ (cardStep_animate c e h)

theorem cardRun_tracks (es : List CardEvent) (c : Card) (h : styleTracksListener c = true) :
    styleTracksListener (cardRun c es) = true := by
  induction es generalizing c with
  | nil => exact h
  | cons e es ih => exact ih _ (cardStep_tracks c e h)

theorem cardRun_listening (es : List CardEvent) (c : Card)
    (h : (cardRun c es).scrollListening = true) : c.scrollListening = true := by
  induction es generalizing c with
  | nil => exact h
  | cons e es ih => exact cardStep_listening c e (ih _ h)

theorem cardRun_observed (es : List CardEvent) (c : Card)
    (h : (cardRun c es).observed = true) : c.observed = true := by
  induction es generalizing c with
  | nil => exact h
  | cons e es ih => exact cardStep_observed c e (ih _ h)

theorem tracks_hidden_iff (c : Card) (h : styleTracksListener c = true) :
    (isHidden c = true ↔ c.scrollListening = true) ∧
    (isShown c = true ↔ c.scrollListening = false) := by
  unfold styleTracksListener at h
  cases hl : c.scrollListening
  · simp only [hl, Bool.false_eq_true, if_false] at h
    have h1 : c.opacity = "1" := by
      simp only [isShown, Bool.and_eq_true, decide_eq_true_eq] at h; exact h.1
    simp [h, isHidden, h1]
  · simp only [hl, if_true] at h
    have h1 : c.opacity = "0" := by
      simp only [isHidden, Bool.and_eq_true, decide_eq_true_eq] at h; exact h.1
    simp [h, isShown, h1]

/-- C9: for every card and every sequence of scroll events and intersection
notifications after `animateOnScroll` has initialised it, the card is revealed
at most once by each mechanism and never hidden again: the revealed style and
the 'animate' class survive every later event, a card found hidden was hidden
all along, and a mechanism that fires is unregistered for that card from then
on. -/
theorem card_reveal_one_shot (c0 : Card) (top0 height0 : Int) (es1 es2 : List CardEvent)
    (e : CardEvent) :
    (isShown (cardRun (initCard top0 height0 c0) es1) = true →
      isShown (cardRun (initCard top0 height0 c0) (es1 ++ es2)) = true) ∧
    ("animate" ∈ (cardRun (initCard top0 height0 c0) es1).classList →
      "animate" ∈ (cardRun (initCard top0 height0 c0) (es1 ++ es2)).classList) ∧
    (isHidden (cardRun (initCard top0 height0 c0) (es1 ++ es2)) = true →
      isHidden (cardRun (initCard top0 height0 c0) es1) = true) ∧
    (if isShown (initCard top0 height0 c0) then 1 else 0)
      + countFires manualFires (initCard top0 height0 c0) es1 ≤ 1 ∧
    countFires watcherFires (initCard top0 height0 c0) es1 ≤ 1 ∧
    (manualFires (cardRun (initCard top0 height0 c0) es1) e = true →
      isShown (cardRun (initCard top0 height0 c0) (es1 ++ [e])) = true ∧
      (cardRun (initCard top0 height0 c0) (es1 ++ e :: es2)).scrollListening = false) ∧
    (watcherFires (cardRun (initCard top0 height0 c0) es1) e = true →
      "animate" ∈ (cardRun (initCard top0 height0 c0) (es1 ++ [e])).classList ∧
      (cardRun (initCard top0 height0 c0) (es1 ++ e :: es2)).observed = false) := by
  have hinit := initCard_tracks top0 height0 c0
  have h1 := cardRun_tracks es1 _ hinit
  have h2 := cardRun_tracks es2 _ h1
  refine ⟨?_, ?_, ?_, ?_, ?_, ?_, ?_⟩
  · intro h
    rw [cardRun_append]
    exact cardRun_shown es2 _ h
  · intro h
    rw [cardRun_append]
    exact cardRun_animate es2 _ h
  · intro h
    rw [cardRun_append] at h
    exact (tracks_hidden_iff _ h1).1.2 (cardRun_listening es2 _ ((tracks_hidden_iff _ h2).1.1 h))
  · have hc := countFires_manual_le es1 (initCard top0 height0 c0)
    cases hl : (initCard top0 height0 c0).scrollListening
    · rw [hl, if_neg (by simp)] at hc
      split <;> omega
    · have hs : ¬ isShown (initCard top0 height0 c0) = true := by
        intro hs
        have := (tracks_hidden_iff _ hinit).2.1 hs
        rw [hl] at this
        cases this
      rw [hl, if_pos rfl] at hc
      rw [if_neg hs]
      omega
  · have hc := countFires_watcher_le es1 (initCard top0 height0 c0)
    rw [initCard_observed, if_pos rfl] at hc
    exact hc
  · intro hf
    obtain ⟨_, hoff, hshown⟩ := manualFires_step _ e hf
    constructor
    · rw [cardRun_append]
      exact hshown
    · rw [cardRun_append]
      show (cardRun (cardStep (cardRun (initCard top0 height0 c0) es1) e) es2).scrollListening
        = false
      cases hl : (cardRun (cardStep (cardRun (initCard top0 height0 c0) es1) e)
        es2).scrollListening
      · rfl
      · have := cardRun_listening es2 _ hl
        rw [hoff] at this
        cases this
  · intro hf
    obtain ⟨_, hoff, hanim⟩ := watcherFires_step _ e hf
    constructor
    · rw [cardRun_append]
      exact hanim
    · rw [cardRun_append]
      show (cardRun (cardStep (cardRun (initCard top0 height0 c0) es1) e) es2).observed = false
      cases hl : (cardRun (cardStep (cardRun (initCard top0 height0 c0) es1) e) es2).observed
      · rfl
      · have := cardRun_observed es2 _ hl
        rw [hoff] at this
        cases this

/-- Witness of C9: a card below the fold is initialised hidden, stays hidden on a
short scroll, is revealed by the manual check on the next one and keeps the
revealed style, with the listener gone, through later events. -/
theorem card_reveal_one_shot_witness :
    isHidden (cardRun (initCard 900 800 plainCard) [.scroll 700 800, .intersection false])
      = true ∧
    isShown (cardRun (initCard 900 800 plainCard)
      ([.scroll 700 800, .intersection false] ++ [.scroll 600 800])) = true ∧
    (cardRun (initCard 900 800 plainCard)
      ([.scroll 700 800, .intersection false] ++
        .scroll 600 800 :: [.intersection true, .scroll 900 800])).scrollListening = false :=
  ⟨by decide,
   (card_reveal_one_shot plainCard 900 800 [.scroll 700 800, .intersection false]
      [.intersection true, .scroll 900 800] (.scroll 600 800)).2.2.2.2.2.1 (by decide)⟩

end Tribute
